import Mathlib

/-!
Verification development for the tailswitch repository (Rust sources:
`src/config.rs`, `src/tailscale.rs`, `src/ui.rs`, `src/main.rs`).

The Rust code is shallowly embedded: Rust `&str` operations are modelled on
`List Char`, external command invocations are driven by an explicit
environment record (`TailscaleEnv`) holding the results the external
`tailscale` CLI would produce, and every external invocation performed by the
embedded code is recorded in an explicit command trace (`Cmd`).
-/

namespace Tailswitch

/-! ## Rust string primitives, modelled on `List Char` -/

/-- Model of Rust `str::starts_with` on character lists. -/
def startsWithSeq : List Char → List Char → Bool
  | _, [] => true
  | [], _ :: _ => false
  | c :: cs, d :: ds => c == d && startsWithSeq cs ds

/-- Model of Rust `str::find(pattern)`: returns the suffix of `hay` beginning
at the first occurrence of `needle` (rather than the index), or `none`. -/
def findSeqSuffix (needle : List Char) : List Char → Option (List Char)
  | [] => if startsWithSeq [] needle then some [] else none
  | c :: rest =>
    if startsWithSeq (c :: rest) needle then some (c :: rest)
    else findSeqSuffix needle rest

/-- Model of Rust `str::contains`: `hay` contains `needle` iff `find` succeeds. -/
def containsSeq (hay needle : List Char) : Bool :=
  (findSeqSuffix needle hay).isSome

/-- Model of Rust `str::lines()`: split on `'\n'`, dropping a final empty
piece produced by a trailing newline, and stripping a trailing `'\r'`. -/
def rustLines (s : List Char) : List (List Char) :=
  let parts := s.splitOn '\n'
  let parts := if parts.getLast? = some [] then parts.dropLast else parts
  parts.map (fun l => if l.getLast? = some '\r' then l.dropLast else l)

/-- Model of Rust `str::split_whitespace().next().unwrap_or("")`: skip leading
whitespace, then take the maximal run of non-whitespace characters. -/
def splitWhitespaceNext (s : List Char) : List Char :=
  (s.dropWhile Char.isWhitespace).takeWhile (fun c => !c.isWhitespace)

/-! ## Data model (`config.rs`) -/

/-- `config.rs`: a declared tailnet entry. -/
structure Tailnet where
  name : String
  login_server : Option String
  auth_key : Option String
  flags : Option (List String)
deriving DecidableEq, Repr

/-! ## `tailscale.rs`: the external-client wrapper and the URL watcher -/

/-- The URL marker scanned for in the login log (`tailscale.rs`, line 178). -/
def urlMarkerStr : String := "https://login.tailscale.com"

/-- The URL marker as a character list. -/
def urlMarker : List Char := urlMarkerStr.data

/-- Suffix of `line` starting at the first occurrence of the URL marker
(`line.find("https://login.tailscale.com")` followed by `&line[start..]`). -/
def findMarkerSuffix (line : List Char) : Option (List Char) :=
  findSeqSuffix urlMarker line

/-- One observable step of the polling loop: the 200ms sleep or the read of
the transient log artifact. -/
inductive PollEvent where
  | sleepMs (ms : Nat)
  | readFile
deriving DecidableEq, Repr

/-- The inner per-attempt scan of `login_and_get_url` (`tailscale.rs`,
lines 177-187): scan each line for the URL marker; on a hit extract the
whitespace-delimited token starting at the marker and return it if nonempty,
otherwise keep scanning. -/
def scanLines : List (List Char) → Option (List Char)
  | [] => none
  | line :: rest =>
    match findMarkerSuffix line with
    | some suf =>
      let url := splitWhitespaceNext suf
      if url.isEmpty then scanLines rest else some url
    | none => scanLines rest

/-- The polling loop of `login_and_get_url` (`tailscale.rs`, lines 172-189):
up to `fuel` attempts starting at attempt index `i`; each attempt sleeps
200ms then reads the log artifact (`read i = none` models a failed
`fs::read_to_string`, treated as "not yet found"). Returns the captured URL
(if any) together with the trace of sleep/read events performed. -/
def pollForUrl (read : Nat → Option (List Char)) :
    Nat → Nat → Option (List Char) × List PollEvent
  | _, 0 => (none, [])
  | i, fuel + 1 =>
    let evs := [PollEvent.sleepMs 200, PollEvent.readFile]
    match read i with
    | some contents =>
      match scanLines (rustLines contents) with
      | some url => (some url, evs)
      | none =>
        let r := pollForUrl read (i + 1) fuel
        (r.1, evs ++ r.2)
    | none =>
      let r := pollForUrl read (i + 1) fuel
      (r.1, evs ++ r.2)

/-- The full bounded wait of `login_and_get_url`: 50 attempts, 200ms apart. -/
def login_and_get_url_poll (read : Nat → Option (List Char)) :
    Option (List Char) × List PollEvent :=
  pollForUrl read 0 50

/-- Whether an attempt's log contents hold a line containing the URL marker. -/
def hasMarkerLine (contents : List Char) : Bool :=
  (rustLines contents).any (fun line => containsSeq line urlMarker)

/-- Number of read attempts in a poll trace. -/
def readCount (evs : List PollEvent) : Nat :=
  (evs.filter (fun e => e == PollEvent.readFile)).length

/-- Results the external `tailscale` CLI produces for each call the embedded
code can make; `readLog` gives the contents of the transient log artifact at
each poll attempt (`none` = file not yet readable). -/
structure TailscaleEnv where
  listProfilesRes : Except String (List (String × String))
  switchOk : Bool
  isLoggedOutRes : Except String Bool
  statusRes : Except String String
  upSpawnOk : Bool
  upExitOk : Bool
  loginSpawnOk : Bool
  readLog : Nat → Option (List Char)
  runUpRes : Except String Unit
  logoutRes : Except String Unit

/-- External invocations performed by the embedded code, in order. -/
inductive Cmd where
  | listProfiles
  | switchTo (name : String)
  | statusQuery
  | loggedOutCheck
  | upFg (args : List String)
  | loginBg (args : List String)
  | sleepMs (ms : Nat)
  | readLogFile
  | logoutCmd
deriving DecidableEq, Repr

/-- `--login-server` arguments contributed by a tailnet's configuration. -/
def optServerArgs (t : Tailnet) : List String :=
  match t.login_server with
  | some s => ["--login-server", s]
  | none => []

/-- Arguments of the foreground `tailscale up` run by `login_and_get_url`
when an auth key is present (`tailscale.rs`, lines 104-118). -/
def upAuthArgs (t : Tailnet) (key : String) : List String :=
  ["up"] ++ optServerArgs t ++ ["--auth-key", key] ++ t.flags.getD []

/-- Arguments of the backgrounded `tailscale login` command composed by
`login_and_get_url` (`tailscale.rs`, lines 141-152). -/
def loginCmdArgs (t : Tailnet) : List String :=
  ["login"] ++ optServerArgs t ++ t.flags.getD []

/-- Arguments of `tailscale up` as composed by `run_up`
(`tailscale.rs`, lines 246-263). -/
def runUpArgs (t : Tailnet) : List String :=
  ["up"] ++ optServerArgs t ++
    (match t.auth_key with
     | some k => ["--auth-key", k]
     | none => []) ++ t.flags.getD []

/-- Poll events as trace commands. -/
def pollEventCmd : PollEvent → Cmd
  | PollEvent.sleepMs ms => Cmd.sleepMs ms
  | PollEvent.readFile => Cmd.readLogFile

/-- `TailscaleClient::login_and_get_url` (`tailscale.rs`, lines 102-193):
with an auth key, run a synchronous foreground `tailscale up` (non-zero exit
is an error, success yields no URL); without one, spawn the interactive
`tailscale login` in the background and poll the log for the auth URL. -/
def login_and_get_url (env : TailscaleEnv) (tailnet : Tailnet) :
    Except String (Option (List Char)) × List Cmd :=
  match tailnet.auth_key with
  | some key =>
    let cmds := [Cmd.upFg (upAuthArgs tailnet key)]
    if env.upSpawnOk then
      if env.upExitOk then (Except.ok none, cmds)
      else (Except.error "Tailscale login failed", cmds)
    else (Except.error "Failed to execute tailscale up", cmds)
  | none =>
    if env.loginSpawnOk then
      let pr := login_and_get_url_poll env.readLog
      (Except.ok pr.1, Cmd.loginBg (loginCmdArgs tailnet) :: pr.2.map pollEventCmd)
    else (Except.error "Failed to start tailscale login", [Cmd.loginBg (loginCmdArgs tailnet)])

/-! ## `main.rs`: candidate list construction (lines 59-92) -/

/-- Whether the current status reports a logged-in session
(`main.rs`, line 61: `!current_status.contains("Logged out")`). -/
def isLoggedIn (status : String) : Bool :=
  !(containsSeq status.data "Logged out".data)

/-- Whether a raw account label carries the active marker
(`account.ends_with('*')`). -/
def endsWithStar (s : String) : Bool :=
  s.data.getLast? == some '*'

/-- `account.trim_end_matches('*')`: strip all trailing active markers for
display. -/
def cleanAccount (s : String) : String :=
  ⟨(s.data.reverse.dropWhile (fun c => c == '*')).reverse⟩

/-- One entry of the operator-facing candidate list; fields mirror the tuple
`(name, account, is_profile, is_active)` of `main.rs`, line 84. -/
structure Candidate where
  name : String
  account : Option String
  is_profile : Bool
  is_active : Bool
deriving DecidableEq, Repr

/-- `main.rs`, lines 64-71: the active tailnet is the name of the first
listed profile whose raw account label ends with `'*'`, and only when the
status does not report "Logged out". -/
def activeTailnet (logged_in : Bool) (profiles : List (String × String)) :
    Option String :=
  if logged_in then (profiles.find? (fun p => endsWithStar p.2)).map (fun p => p.1)
  else none

/-- `main.rs`, lines 73-92: registered profiles first (account label cleaned
for display, active flag from the active-tailnet name), then declared config
entries whose name is not already a registered profile. -/
def buildOptions (profiles : List (String × String)) (tailnets : List Tailnet)
    (status : String) : List Candidate :=
  let logged_in := isLoggedIn status
  let active := activeTailnet logged_in profiles
  (profiles.map (fun p =>
    { name := p.1, account := some (cleanAccount p.2), is_profile := true,
      is_active := active == some p.1 })) ++
  ((tailnets.filter (fun tn => !(profiles.any (fun p => p.1 == tn.name)))).map
    (fun tn =>
      { name := tn.name, account := none, is_profile := false, is_active := false }))

/-! ## `ui.rs`: the interaction state machine -/

/-- The orchestration actions the TUI can emit (`ui.rs`, lines 18-24). -/
inductive AppAction where
  | SelectTailnet (t : Tailnet)
  | RunTailscaleUp
  | ShowStatus
  | Logout
  | Quit
deriving DecidableEq, Repr

/-- The mutable `App` state (`ui.rs`, lines 26-33): option list, list
selection, quit flag, status message, loaded config, and the optional output
view `(title, content)`. -/
structure AppState where
  options : List Candidate
  selected : Option Nat
  should_quit : Bool
  status_message : Option String
  config : List Tailnet
  output_view : Option (String × String)
deriving DecidableEq, Repr

/-- `App::new_with_options` (`ui.rs`, lines 41-58): selection starts at 0
when the option list is nonempty, undefined otherwise. -/
def new_with_options (options : List Candidate) (config : List Tailnet) :
    AppState :=
  { options := options,
    selected := if options.isEmpty then none else some 0,
    should_quit := false,
    status_message := none,
    config := config,
    output_view := none }

/-- Rust `usize` subtraction: `none` models the arithmetic underflow panic
(debug overflow check) when the subtrahend exceeds the minuend. -/
def usizeSub (a b : Nat) : Option Nat :=
  if b ≤ a then some (a - b) else none

/-- `App::next` (`ui.rs`, lines 276-288): move the selection down with
wrap-around; computes `options.len() - 1` in unsigned arithmetic. -/
def next (s : AppState) : Option AppState :=
  match s.selected with
  | some i =>
    match usizeSub s.options.length 1 with
    | some lastIdx =>
      some { s with selected := some (if lastIdx ≤ i then 0 else i + 1) }
    | none => none
  | none => some { s with selected := some 0 }

/-- `App::previous` (`ui.rs`, lines 290-302): move the selection up with
wrap-around; computes `options.len() - 1` in unsigned arithmetic when the
selection is at index 0. -/
def previous (s : AppState) : Option AppState :=
  match s.selected with
  | some i =>
    if i == 0 then
      match usizeSub s.options.length 1 with
      | some lastIdx => some { s with selected := some lastIdx }
      | none => none
    else
      match usizeSub i 1 with
      | some j => some { s with selected := some j }
      | none => none
  | none => some { s with selected := some 0 }

/-- The bare `Tailnet` the Enter handler constructs from a selected list
entry (`ui.rs`, lines 141-146): name only, no login server, no auth key, no
flags. -/
def selectedTailnet (name : String) : Tailnet :=
  { name := name, login_server := none, auth_key := none, flags := none }

/-- `App::get_selected_tailnet_name` (`ui.rs`, lines 304-312). -/
def get_selected_tailnet_name (app : AppState) : Option String :=
  app.selected.bind (fun index =>
    if h : index < app.options.length then some (app.options.get ⟨index, h⟩).name
    else none)

/-- `App::get_active_tailnet_name` (`ui.rs`, lines 314-319). -/
def get_active_tailnet_name (app : AppState) : Option String :=
  (app.options.find? (fun c => c.is_active)).map (fun c => c.name)

/-- Key presses the run loop reacts to (`ui.rs`, lines 87-152). -/
inductive Key where
  | esc
  | enter
  | down
  | up
  | char (c : Char)
  | other
deriving DecidableEq, Repr

/-- Output-view key handling of `App::run_loop` (`ui.rs`, lines 91-107):
Esc/Enter drop the output view and clear the action and quit flag; `'q'`
quits; other keys are ignored. -/
def outputViewKey (s : AppState) (act : Option AppAction) (k : Key) :
    AppState × Option AppAction :=
  match k with
  | Key.esc => ({ s with output_view := none, should_quit := false }, none)
  | Key.enter => ({ s with output_view := none, should_quit := false }, none)
  | Key.char c =>
    if c == 'q' then
      ({ s with output_view := none, should_quit := true }, some AppAction.Quit)
    else (s, act)
  | Key.down => (s, act)
  | Key.up => (s, act)
  | Key.other => (s, act)

/-- The Enter handler of the list view (`ui.rs`, lines 136-149): emit
`SelectTailnet` for the highlighted candidate when the selection index is in
range, as a bare tailnet. -/
def listViewEnter (s : AppState) (act : Option AppAction) :
    AppState × Option AppAction :=
  match s.selected with
  | some index =>
    if h : index < s.options.length then
      ({ s with should_quit := true },
       some (AppAction.SelectTailnet
         (selectedTailnet (s.options.get ⟨index, h⟩).name)))
    else (s, act)
  | none => (s, act)

/-- List-view key handling of `App::run_loop` (`ui.rs`, lines 109-151);
`none` models the arithmetic underflow panic inside `next`/`previous`. -/
def listViewKey (s : AppState) (act : Option AppAction) (k : Key) :
    Option (AppState × Option AppAction) :=
  match k with
  | Key.char c =>
    if c == 'q' then some ({ s with should_quit := true }, some AppAction.Quit)
    else if c == 'j' then (next s).map (fun s2 => (s2, act))
    else if c == 'k' then (previous s).map (fun s2 => (s2, act))
    else if c == 'u' then
      some ({ s with should_quit := true }, some AppAction.RunTailscaleUp)
    else if c == 's' then
      some ({ s with should_quit := true }, some AppAction.ShowStatus)
    else if c == 'l' then
      some ({ s with should_quit := true }, some AppAction.Logout)
    else some (s, act)
  | Key.down => (next s).map (fun s2 => (s2, act))
  | Key.up => (previous s).map (fun s2 => (s2, act))
  | Key.enter => some (listViewEnter s act)
  | Key.esc => some (s, act)
  | Key.other => some (s, act)

/-- One iteration of `App::run_loop` (`ui.rs`, lines 84-158) on a key press:
given the current state and the run-local `action` variable, produce the new
state and `action`; `none` models the arithmetic underflow panic inside
`next`/`previous`. -/
def handleKey (s : AppState) (act : Option AppAction) (k : Key) :
    Option (AppState × Option AppAction) :=
  match s.output_view with
  | some _ => some (outputViewKey s act k)
  | none => listViewKey s act k

/-- Result of driving `App::run_loop` over a finite key sequence. -/
inductive RunResult where
  | finished (action : Option AppAction)
  | blocked
  | panicked
deriving DecidableEq, Repr

/-- `App::run_loop` over a list of key presses: handle keys until
`should_quit` is set (then return the run-local `action`), the input is
exhausted (`blocked`), or an arithmetic panic occurs. -/
def runLoop (s : AppState) (act : Option AppAction) : List Key → RunResult
  | [] => RunResult.blocked
  | k :: ks =>
    match handleKey s act k with
    | none => RunResult.panicked
    | some (s2, act2) =>
      if s2.should_quit then RunResult.finished act2 else runLoop s2 act2 ks

/-! ## `main.rs`: the selection engine and the orchestration loop body -/

/-- Observable result of the `SelectTailnet` branch of `main`
(lines 102-393). `Fatal` marks an error propagated out of `main` by `?`. -/
inductive Outcome where
  | Switched (status : Option String)
  | ConnectedDirect (status : Option String)
  | NeedsInteractiveAuth (url : List Char)
  | Fatal (msg : String)
deriving DecidableEq, Repr

/-- The login flow shared by the unregistered, switch-failed, and
still-logged-out paths of `main` (lines 143-253 and 282-391): call
`login_and_get_url`; an error propagates (`?`), a captured URL leads to the
URL prompt, and no URL means the connection completed (status displayed). -/
def loginFlow (env : TailscaleEnv) (t : Tailnet) : Outcome × List Cmd :=
  let r := login_and_get_url env t
  match r.1 with
  | Except.error e => (Outcome.Fatal e, r.2)
  | Except.ok (some url) => (Outcome.NeedsInteractiveAuth url, r.2)
  | Except.ok none =>
    (Outcome.ConnectedDirect env.statusRes.toOption, r.2 ++ [Cmd.statusQuery])

/-- The `SelectTailnet` branch of `main` (lines 102-393): list profiles
(failures treated as an empty list); if the name is registered, fast-switch
and, when the profile is still logged out, re-authenticate using the declared
config entry of the same name (falling back to the selected tailnet); an
unregistered name or a failed switch goes straight to the login flow with the
selected tailnet. -/
def executeSelection (env : TailscaleEnv) (config : List Tailnet)
    (tailnet : Tailnet) : Outcome × List Cmd :=
  let profiles := env.listProfilesRes.toOption.getD []
  let profile_exists := profiles.any (fun p => p.1 == tailnet.name)
  if profile_exists then
    if env.switchOk then
      let is_logged_out := env.isLoggedOutRes.toOption.getD false
      if is_logged_out then
        let tailnet_with_config :=
          (config.find? (fun t => t.name == tailnet.name)).getD tailnet
        let r := loginFlow env tailnet_with_config
        (r.1, Cmd.listProfiles :: Cmd.switchTo tailnet.name ::
              Cmd.loggedOutCheck :: r.2)
      else
        (Outcome.Switched env.statusRes.toOption,
         [Cmd.listProfiles, Cmd.switchTo tailnet.name, Cmd.loggedOutCheck,
          Cmd.statusQuery])
    else
      let r := loginFlow env tailnet
      (r.1, Cmd.listProfiles :: Cmd.switchTo tailnet.name :: r.2)
  else
    let r := loginFlow env tailnet
    (r.1, Cmd.listProfiles :: r.2)

/-- How one loop iteration of `main` ends: exit the loop, push an output
view and continue, or abort the process with a propagated error. -/
inductive LoopStep where
  | exited
  | showOutput (title body : String)
  | fatal (msg : String)
deriving DecidableEq, Repr

/-- Output-view body built by the `RunTailscaleUp` branch on success
(`main.rs`, lines 426-441). -/
def runUpSuccessBody (name : String) (tcfg : Tailnet) (env : TailscaleEnv) :
    String :=
  let base := "✓ Successfully updated connection settings for '" ++ name ++ "'!\n"
  let base :=
    match tcfg.flags with
    | some fs => base ++ "\nApplied flags: " ++ String.intercalate " " fs ++ "\n"
    | none => base
  match env.statusRes with
  | Except.ok st => base ++ "\n" ++ st
  | Except.error _ => base

/-- The action dispatch of `main`'s orchestration loop (lines 100-474):
executes the action against the external client and reports how the
iteration ends, together with the external commands issued. -/
def handleAction (env : TailscaleEnv) (config : List Tailnet) (app : AppState)
    (action : Option AppAction) : LoopStep × List Cmd :=
  match action with
  | some (AppAction.SelectTailnet t) =>
    let r := executeSelection env config t
    (match r.1 with
     | Outcome.Fatal e => LoopStep.fatal e
     | _ => LoopStep.exited, r.2)
  | some AppAction.RunTailscaleUp =>
    match (get_selected_tailnet_name app).orElse
        (fun _ => get_active_tailnet_name app) with
    | none => (LoopStep.showOutput "Error" "No tailnet selected or active", [])
    | some name =>
      let tailnet_config := (config.find? (fun t => t.name == name)).getD
        { name := name, login_server := none, auth_key := none, flags := none }
      match env.runUpRes with
      | Except.ok _ =>
        (LoopStep.showOutput ("Tailscale Up - " ++ name)
           (runUpSuccessBody name tailnet_config env),
         [Cmd.upFg (runUpArgs tailnet_config), Cmd.statusQuery])
      | Except.error e =>
        (LoopStep.showOutput ("Tailscale Up - " ++ name)
           ("✗ Failed to run tailscale up: " ++ e),
         [Cmd.upFg (runUpArgs tailnet_config)])
  | some AppAction.ShowStatus =>
    (LoopStep.showOutput "Tailscale Status"
       (match env.statusRes with
        | Except.ok st => st
        | Except.error e => "✗ Failed to get status: " ++ e),
     [Cmd.statusQuery])
  | some AppAction.Logout =>
    (LoopStep.showOutput "Logout"
       (match env.logoutRes with
        | Except.ok _ => "✓ Successfully logged out!"
        | Except.error e => "✗ Failed to logout: " ++ e),
     [Cmd.logoutCmd])
  | some AppAction.Quit => (LoopStep.exited, [])
  | none => (LoopStep.exited, [])

/-- A sequence of navigation steps (`true` = `next`, `false` = `previous`),
as issued by repeated Down/Up key presses. -/
def navigate (s : AppState) : List Bool → Option AppState
  | [] => some s
  | b :: bs => (if b then next s else previous s).bind (fun s2 => navigate s2 bs)

/-- A quiescent environment: every external call succeeds and the log
artifact never becomes readable. -/
def envIdle : TailscaleEnv :=
  { listProfilesRes := Except.ok [], switchOk := true,
    isLoggedOutRes := Except.ok false, statusRes := Except.ok "up",
    upSpawnOk := true, upExitOk := true, loginSpawnOk := true,
    readLog := fun _ => none, runUpRes := Except.ok (),
    logoutRes := Except.ok () }

/-- Witness environment for C7: `Work` is registered, the switch succeeds,
and the profile is reported logged out. -/
def envSwitchLoggedOut : TailscaleEnv :=
  { listProfilesRes := Except.ok [("Work", "user@x*")], switchOk := true,
    isLoggedOutRes := Except.ok true, statusRes := Except.ok "up",
    upSpawnOk := true, upExitOk := true, loginSpawnOk := true,
    readLog := fun _ => none, runUpRes := Except.ok (),
    logoutRes := Except.ok () }

/-- Declared config entry for the C7 witness, carrying an auth key the bare
selection lacks. -/
def declaredWork : Tailnet :=
  { name := "Work", login_server := none, auth_key := some "kw", flags := none }

/-- Environment of end-to-end scenario B: no registered profiles, the log
artifact never yields a URL. -/
def envScenarioB : TailscaleEnv :=
  { listProfilesRes := Except.ok [], switchOk := true,
    isLoggedOutRes := Except.ok false, statusRes := Except.ok "up",
    upSpawnOk := true, upExitOk := true, loginSpawnOk := true,
    readLog := fun _ => none, runUpRes := Except.ok (),
    logoutRes := Except.ok () }

/-- Declared identities of scenario B: `Home` with auth key `k1`. -/
def declaredScenarioB : List Tailnet :=
  [{ name := "Home", login_server := none, auth_key := some "k1", flags := none }]

/-- Environment for the C2 counterexample: `Work` is registered, the switch
succeeds, the profile is still logged out, and the foreground bring-up with
the declared auth key exits non-zero. -/
def envFailingUp : TailscaleEnv :=
  { listProfilesRes := Except.ok [("Work", "user@x*")], switchOk := true,
    isLoggedOutRes := Except.ok true, statusRes := Except.ok "up",
    upSpawnOk := true, upExitOk := false, loginSpawnOk := true,
    readLog := fun _ => none, runUpRes := Except.ok (),
    logoutRes := Except.ok () }

/-- An environment whose status and logout commands fail with diagnostics. -/
def envStatusFails : TailscaleEnv :=
  { listProfilesRes := Except.ok [], switchOk := true,
    isLoggedOutRes := Except.ok false,
    statusRes := Except.error "status broke",
    upSpawnOk := true, upExitOk := true, loginSpawnOk := true,
    readLog := fun _ => none, runUpRes := Except.ok (),
    logoutRes := Except.error "logout broke" }

/-- Whether the attempt with index `n` would find a URL: the log is readable
and some line scans to a URL. -/
def attemptFinds (read : Nat → Option (List Char)) (n : Nat) : Bool :=
  match read n with
  | some c => (scanLines (rustLines c)).isSome
  | none => false

/-- Concrete log contents for the C5 witness: attempt 2 gains a line with
the URL marker. -/
def watcherLogContents : List Char :=
  "To authenticate, visit:\n\n\thttps://login.tailscale.com/a/b12cd\n".data

/-- Concrete read function for the C5 witness: the artifact is unreadable on
attempts 0 and 1 and holds the URL line from attempt 2 on. -/
def watcherLogRead : Nat → Option (List Char) :=
  fun n => if n == 2 then some watcherLogContents else none

theorem next_ok (s : AppState) (h0 : 0 < s.options.length) (i : Nat)
    (hi : s.selected = some i) :
    ∃ j, next s = some { s with selected := some j } ∧ j < s.options.length := by
  have hle : 1 ≤ s.options.length := h0
  unfold next
  rw [hi]
  have h1 : usizeSub s.options.length 1 = some (s.options.length - 1) := by
    simp [usizeSub, hle]
  rw [h1]
  refine ⟨if s.options.length - 1 ≤ i then 0 else i + 1, rfl, ?_⟩
  split
  · exact h0
  · omega

theorem previous_ok (s : AppState) (h0 : 0 < s.options.length) (i : Nat)
    (hi : s.selected = some i) (hlt : i < s.options.length) :
    ∃ j, previous s = some { s with selected := some j } ∧ j < s.options.length := by
  have hle : 1 ≤ s.options.length := h0
  unfold previous
  rw [hi]
  by_cases hz : i = 0
  · subst hz
    have h1 : usizeSub s.options.length 1 = some (s.options.length - 1) := by
      simp [usizeSub, hle]
    simp [h1]
    omega
  · have h1 : usizeSub i 1 = some (i - 1) := by
      simp [usizeSub, Nat.one_le_iff_ne_zero.mpr hz]
    simp [hz, h1]
    omega

theorem navigate_ok (moves : List Bool) :
    ∀ (s : AppState), 0 < s.options.length →
    (∃ i, s.selected = some i ∧ i < s.options.length) →
    ∃ s2, navigate s moves = some s2 ∧ s2.options = s.options ∧
      ∃ j, s2.selected = some j ∧ j < s2.options.length := by
  induction moves with
  | nil =>
    intro s h0 ⟨i, hi, hlt⟩
    exact ⟨s, rfl, rfl, i, hi, hlt⟩
  | cons b bs ih =>
    intro s h0 ⟨i, hi, hlt⟩
    cases b with
    | true =>
      obtain ⟨j, hstep, hj⟩ := next_ok s h0 i hi
      obtain ⟨s2, hnav, hopts, hsel⟩ :=
        ih { s with selected := some j } h0 ⟨j, rfl, hj⟩
      exact ⟨s2, by simp [navigate, hstep, hnav], hopts, hsel⟩
    | false =>
      obtain ⟨j, hstep, hj⟩ := previous_ok s h0 i hi hlt
      obtain ⟨s2, hnav, hopts, hsel⟩ :=
        ih { s with selected := some j } h0 ⟨j, rfl, hj⟩
      exact ⟨s2, by simp [navigate, hstep, hnav], hopts, hsel⟩

end Tailswitch

namespace Tailswitch

/-- Claim C8: in the list view, navigating down from the last index selects
index 0 and navigating up from index 0 selects the last index (wrap-around in
both directions); when the candidate list is empty, pressing select-confirm
(Enter) emits no Action. -/
theorem c8_list_navigation (s : AppState) (act : Option AppAction) :
    (s.output_view = none → s.options ≠ [] →
       s.selected = some (s.options.length - 1) →
       handleKey s act Key.down = some ({ s with selected := some 0 }, act))
  ∧ (s.output_view = none → s.options ≠ [] → s.selected = some 0 →
       handleKey s act Key.up =
         some ({ s with selected := some (s.options.length - 1) }, act))
  ∧ (s.output_view = none → s.options = [] →
       handleKey s act Key.enter = some (s, act)) := by
  have hsub : s.options ≠ [] →
      usizeSub s.options.length 1 = some (s.options.length - 1) := by
    intro hne
    have h1 : 1 ≤ s.options.length := List.length_pos.mpr hne
    simp [usizeSub, h1]
  refine ⟨?_, ?_, ?_⟩
  · intro hov hne hsel
    simp [handleKey, hov, listViewKey, next, hsel, hsub hne]
  · intro hov hne hsel
    simp [handleKey, hov, listViewKey, previous, hsel, hsub hne]
  · intro hov hempty
    simp only [handleKey, hov, listViewKey, listViewEnter]
    cases hsel : s.selected with
    | none => simp
    | some index => simp [hempty]

/-- Witness for C8 at a concrete two-element candidate list and at the empty
list. -/
theorem c8_list_navigation_witness :
    handleKey
      { new_with_options
          [⟨"A", none, true, false⟩, ⟨"B", none, false, false⟩] [] with
        selected := some 1 } none Key.down =
      some ({ new_with_options
          [⟨"A", none, true, false⟩, ⟨"B", none, false, false⟩] [] with
        selected := some 0 }, none)
  ∧ handleKey (new_with_options [] []) none Key.enter =
      some (new_with_options [] [], none) := by
  constructor
  · exact
      ((c8_list_navigation
        { new_with_options
            [⟨"A", none, true, false⟩, ⟨"B", none, false, false⟩] [] with
          selected := some 1 } none).1 rfl (by decide) rfl)
  · exact
      ((c8_list_navigation (new_with_options [] []) none).2.2 rfl rfl)

/-- Claim C9: from the output view, Enter or Esc returns the controller to
the list view with the pending action discarded and the loop continuing,
while the quit key emits `Quit` and ends the run. -/
theorem c9_output_view_transitions (s : AppState) (act : Option AppAction)
    (ov : String × String) (ks : List Key) (h : s.output_view = some ov) :
    runLoop s act (Key.enter :: ks) =
      runLoop { s with output_view := none, should_quit := false } none ks
  ∧ runLoop s act (Key.esc :: ks) =
      runLoop { s with output_view := none, should_quit := false } none ks
  ∧ runLoop s act (Key.char 'q' :: ks) =
      RunResult.finished (some AppAction.Quit) := by
  refine ⟨?_, ?_, ?_⟩ <;> simp [runLoop, handleKey, h, outputViewKey]

/-- Witness for C9 at a concrete state showing an output view. -/
theorem c9_output_view_transitions_witness :
    runLoop { new_with_options [] [] with output_view := some ("t", "b") }
        none [Key.enter] =
      runLoop
        { new_with_options [] [] with
            output_view := none, should_quit := false } none []
  ∧ runLoop { new_with_options [] [] with output_view := some ("t", "b") }
        none [Key.char 'q'] = RunResult.finished (some AppAction.Quit) := by
  have h := c9_output_view_transitions
    { new_with_options [] [] with output_view := some ("t", "b") }
    none ("t", "b") [] rfl
  exact ⟨h.1, h.2.2⟩

/-- Claim C10: for every App constructed from a non-empty options list, any
sequence of next/previous navigation steps leaves the selected index defined
and strictly below the options length, with no arithmetic underflow; from an
empty options list, navigating down selects index 0 and the following
navigate-up hits the `options.len() - 1` underflow on a zero length
(modelled as `none`). -/
theorem c10_navigation_safety :
    (∀ (opts : List Candidate) (cfg : List Tailnet) (moves : List Bool),
        opts ≠ [] →
        ∃ s2, navigate (new_with_options opts cfg) moves = some s2 ∧
          ∃ j, s2.selected = some j ∧ j < opts.length)
  ∧ (∀ cfg : List Tailnet,
       next (new_with_options [] cfg) =
         some { new_with_options [] cfg with selected := some 0 }
     ∧ (next (new_with_options [] cfg)).bind previous = none) := by
  constructor
  · intro opts cfg moves hne
    have h0 : 0 < (new_with_options opts cfg).options.length := by
      simpa [new_with_options] using List.length_pos.mpr hne
    have hsel : (new_with_options opts cfg).selected = some 0 := by
      simp [new_with_options, List.isEmpty_iff, hne]
    obtain ⟨s2, hnav, hopts, j, hj, hlt⟩ :=
      navigate_ok moves (new_with_options opts cfg) h0 ⟨0, hsel, h0⟩
    refine ⟨s2, hnav, j, hj, ?_⟩
    have : s2.options = opts := by simpa [new_with_options] using hopts
    simpa [this] using hlt
  · intro cfg
    constructor
    · simp [next, new_with_options]
    · simp [next, previous, new_with_options, usizeSub]

/-- Witness for C10 at a concrete one-element options list and move list. -/
theorem c10_navigation_safety_witness :
    ∃ s2, navigate (new_with_options [⟨"A", none, true, false⟩] [])
        [true, false, true] = some s2 ∧
      ∃ j, s2.selected = some j ∧ j < 1 := by
  have h := c10_navigation_safety.1 [⟨"A", none, true, false⟩] []
    [true, false, true] (by decide)
  simpa using h

theorem logout_not_in_login_and_get_url (env : TailscaleEnv) (t : Tailnet) :
    Cmd.logoutCmd ∉ (login_and_get_url env t).2 := by
  unfold login_and_get_url
  cases t.auth_key with
  | some key =>
    by_cases h1 : env.upSpawnOk <;> by_cases h2 : env.upExitOk <;>
      simp [h1, h2]
  | none =>
    by_cases h1 : env.loginSpawnOk <;> simp [h1, List.mem_map, pollEventCmd]
    intro e _
    cases e <;> simp [pollEventCmd]

theorem logout_not_in_loginFlow (env : TailscaleEnv) (t : Tailnet) :
    Cmd.logoutCmd ∉ (loginFlow env t).2 := by
  have h := logout_not_in_login_and_get_url env t
  unfold loginFlow
  cases hr : (login_and_get_url env t).1 with
  | error e => simpa [hr] using h
  | ok o =>
    cases o with
    | some url => simpa [hr] using h
    | none => simp [hr, List.mem_append, h]

theorem logout_not_in_executeSelection (env : TailscaleEnv)
    (config : List Tailnet) (t : Tailnet) :
    Cmd.logoutCmd ∉ (executeSelection env config t).2 := by
  unfold executeSelection
  by_cases h1 :
      (env.listProfilesRes.toOption.getD []).any (fun p => p.1 == t.name) <;>
    by_cases h2 : env.switchOk <;>
    by_cases h3 : env.isLoggedOutRes.toOption.getD false <;>
    simp [h1, h2, h3, logout_not_in_loginFlow]

/-- Claim C6: `executeSelection` never issues a logout command under any
outcome branch; across the whole action dispatch, only the explicit `Logout`
action issues one. -/
theorem c6_no_logout (env : TailscaleEnv) (config : List Tailnet) (t : Tailnet)
    (app : AppState) (action : Option AppAction) :
    Cmd.logoutCmd ∉ (executeSelection env config t).2
  ∧ (Cmd.logoutCmd ∈ (handleAction env config app action).2 →
       action = some AppAction.Logout) := by
  refine ⟨logout_not_in_executeSelection env config t, ?_⟩
  intro hmem
  match action with
  | some (AppAction.SelectTailnet t2) =>
    exact absurd (by simpa [handleAction] using hmem)
      (logout_not_in_executeSelection env config t2)
  | some AppAction.RunTailscaleUp =>
    exfalso
    revert hmem
    simp only [handleAction]
    cases hsel : (get_selected_tailnet_name app).orElse
        (fun _ => get_active_tailnet_name app) with
    | none => simp
    | some name => cases hr : env.runUpRes <;> simp
  | some AppAction.ShowStatus => simp [handleAction] at hmem
  | some AppAction.Logout => rfl
  | some AppAction.Quit => simp [handleAction] at hmem
  | none => simp [handleAction] at hmem

theorem c6_no_logout_witness :
    Cmd.logoutCmd ∉
      (executeSelection envIdle [] (selectedTailnet "Home")).2
  ∧ some AppAction.Logout = some AppAction.Logout :=
  ⟨(c6_no_logout envIdle [] (selectedTailnet "Home") (new_with_options [] [])
      (some AppAction.Logout)).1,
   (c6_no_logout envIdle [] (selectedTailnet "Home") (new_with_options [] [])
      (some AppAction.Logout)).2 (by decide)⟩

/-- Claim C7: when a fast switch succeeds but the profile is still logged
out, the engine runs the login flow on the declared config entry whose name
matches the selection, falling back to the selected bare tailnet only when no
such declared entry exists. -/
theorem c7_declared_lookup (env : TailscaleEnv) (config : List Tailnet)
    (t : Tailnet)
    (hreg : (env.listProfilesRes.toOption.getD []).any
      (fun p => p.1 == t.name) = true)
    (hsw : env.switchOk = true)
    (hlo : env.isLoggedOutRes.toOption.getD false = true) :
    (∀ c, config.find? (fun d => d.name == t.name) = some c →
       executeSelection env config t =
         ((loginFlow env c).1,
          Cmd.listProfiles :: Cmd.switchTo t.name :: Cmd.loggedOutCheck ::
            (loginFlow env c).2))
  ∧ (config.find? (fun d => d.name == t.name) = none →
       executeSelection env config t =
         ((loginFlow env t).1,
          Cmd.listProfiles :: Cmd.switchTo t.name :: Cmd.loggedOutCheck ::
            (loginFlow env t).2)) := by
  constructor
  · intro c hc
    simp [executeSelection, hreg, hsw, hlo, hc]
  · intro hc
    simp [executeSelection, hreg, hsw, hlo, hc]

theorem c7_declared_lookup_witness :
    executeSelection envSwitchLoggedOut [declaredWork]
        (selectedTailnet "Work") =
      ((loginFlow envSwitchLoggedOut declaredWork).1,
       Cmd.listProfiles :: Cmd.switchTo "Work" :: Cmd.loggedOutCheck ::
         (loginFlow envSwitchLoggedOut declaredWork).2) :=
  (c7_declared_lookup envSwitchLoggedOut [declaredWork]
      (selectedTailnet "Work") (by decide) rfl (by decide)).1
    declaredWork (by decide)

/-- Claim C1 (code behavior at the claimed scenario): with registered=[] and
declared=[Home/auth_key=k1], selecting `Home` through the list view makes the
engine spawn the background interactive `tailscale login` and poll the log
artifact (the URL watcher), and it never runs a foreground bring-up — the
declared auth key is not recovered because the Enter handler passes a bare
tailnet and `main` does not consult the config on the unregistered path. -/
theorem c1_scenario_b_code_behavior :
    (executeSelection envScenarioB declaredScenarioB
        (selectedTailnet "Home")).1 = Outcome.ConnectedDirect (some "up")
  ∧ Cmd.loginBg ["login"] ∈
      (executeSelection envScenarioB declaredScenarioB
        (selectedTailnet "Home")).2
  ∧ Cmd.readLogFile ∈
      (executeSelection envScenarioB declaredScenarioB
        (selectedTailnet "Home")).2
  ∧ ((executeSelection envScenarioB declaredScenarioB
        (selectedTailnet "Home")).2.all
      (fun c =>
        match c with
        | Cmd.upFg _ => false
        | _ => true)) = true := by
  refine ⟨by decide, by decide, by decide, by decide⟩

/-- Counterexample to claim C2: a mid-loop external bring-up failure (the
foreground `tailscale up --auth-key` exiting non-zero inside the selection
flow) is propagated by `?` and terminates the process instead of being shown
in the output view. -/
theorem c2_counterexample :
    (handleAction envFailingUp [declaredWork] (new_with_options [] [])
        (some (AppAction.SelectTailnet (selectedTailnet "Work")))).1 =
      LoopStep.fatal "Tailscale login failed" := by
  decide

/-- Claim C2 as amended: a fatal (process-terminating) loop step can arise
only from the `SelectTailnet` flow; the settings-refresh, status, and logout
actions always end in an output view, with failures of status and logout
rendered as diagnostic messages there. -/
theorem c2_error_policy (env : TailscaleEnv) (config : List Tailnet)
    (app : AppState) (action : Option AppAction) :
    (∀ e, (handleAction env config app action).1 = LoopStep.fatal e →
       ∃ t, action = some (AppAction.SelectTailnet t))
  ∧ ((action = some AppAction.RunTailscaleUp ∨
      action = some AppAction.ShowStatus ∨
      action = some AppAction.Logout) →
       ∃ title body,
         (handleAction env config app action).1 = LoopStep.showOutput title body)
  ∧ (∀ e, env.statusRes = Except.error e →
       (handleAction env config app (some AppAction.ShowStatus)).1 =
         LoopStep.showOutput "Tailscale Status" ("✗ Failed to get status: " ++ e))
  ∧ (∀ e, env.logoutRes = Except.error e →
       (handleAction env config app (some AppAction.Logout)).1 =
         LoopStep.showOutput "Logout" ("✗ Failed to logout: " ++ e)) := by
  refine ⟨?_, ?_, ?_, ?_⟩
  · intro e hfatal
    match action with
    | some (AppAction.SelectTailnet t2) => exact ⟨t2, rfl⟩
    | some AppAction.RunTailscaleUp =>
      exfalso
      revert hfatal
      simp only [handleAction]
      cases hsel : (get_selected_tailnet_name app).orElse
          (fun _ => get_active_tailnet_name app) with
      | none => simp
      | some name => cases hr : env.runUpRes <;> simp
    | some AppAction.ShowStatus => simp [handleAction] at hfatal
    | some AppAction.Logout => simp [handleAction] at hfatal
    | some AppAction.Quit => simp [handleAction] at hfatal
    | none => simp [handleAction] at hfatal
  · rintro (rfl | rfl | rfl)
    · simp only [handleAction]
      cases hsel : (get_selected_tailnet_name app).orElse
          (fun _ => get_active_tailnet_name app) with
      | none => exact ⟨"Error", "No tailnet selected or active", rfl⟩
      | some name =>
        cases hr : env.runUpRes with
        | ok u => exact ⟨_, _, rfl⟩
        | error e => exact ⟨_, _, rfl⟩
    · exact ⟨_, _, rfl⟩
    · exact ⟨_, _, rfl⟩
  · intro e he
    simp [handleAction, he]
  · intro e he
    simp [handleAction, he]

theorem c2_error_policy_witness :
    (∃ title body,
      (handleAction envStatusFails [] (new_with_options [] [])
          (some AppAction.ShowStatus)).1 = LoopStep.showOutput title body)
  ∧ (handleAction envStatusFails [] (new_with_options [] [])
        (some AppAction.ShowStatus)).1 =
      LoopStep.showOutput "Tailscale Status"
        ("✗ Failed to get status: " ++ "status broke")
  ∧ (handleAction envStatusFails [] (new_with_options [] [])
        (some AppAction.Logout)).1 =
      LoopStep.showOutput "Logout" ("✗ Failed to logout: " ++ "logout broke") :=
  ⟨(c2_error_policy envStatusFails [] (new_with_options [] [])
      (some AppAction.ShowStatus)).2.1 (Or.inr (Or.inl rfl)),
   (c2_error_policy envStatusFails [] (new_with_options [] [])
      (some AppAction.ShowStatus)).2.2.1 "status broke" rfl,
   (c2_error_policy envStatusFails [] (new_with_options [] [])
      (some AppAction.Logout)).2.2.2 "logout broke" rfl⟩

theorem filter_first_name (t0 : String) (l : List (String × String))
    (h : (l.map Prod.fst).Nodup) :
    (l.filter (fun q => t0 == q.1)).length ≤ 1 := by
  induction l with
  | nil => simp
  | cons q l ih =>
    rw [List.map_cons, List.nodup_cons] at h
    by_cases hq : t0 = q.1
    · have hnil : l.filter (fun r => t0 == r.1) = [] := by
        rw [List.filter_eq_nil_iff]
        intro r hr
        simp only [beq_iff_eq]
        intro he
        apply h.1
        rw [hq] at he
        rw [he]
        exact List.mem_map_of_mem Prod.fst hr
      have hpq : (t0 == q.1) = true := by
        simpa using hq
      simp [List.filter_cons, hpq, hnil]
    · have hne : (t0 == q.1) = false := by
        simpa using hq
      simp only [List.filter_cons, hne, Bool.false_eq_true, if_false]
      exact ih h.2

/-- Counterexample to claim C3 as stated: with two registered profiles
sharing the name "A" (first one starred), both candidates come out active;
and with a logged-out status, a starred raw label yields an inactive
candidate. -/
theorem c3_counterexample :
    ((buildOptions [("A", "x*"), ("A", "y")] [] "up").filter
        (fun c => c.is_active)).length = 2
  ∧ (buildOptions [("A", "x*")] [] "Logged out.").map (fun c => c.is_active) =
      [false]
  ∧ endsWithStar "y" = false ∧ endsWithStar "x*" = true := by
  refine ⟨by decide, by decide, by decide, by decide⟩

/-- Claim C3 as amended: at most one candidate is active provided the
registered profile names are pairwise distinct; and a candidate is active iff
the status does not report logged-out and the candidate's name equals the
tailnet name of the first registered profile whose raw account label ends
with the active marker. -/
theorem c3_active_invariant (profiles : List (String × String))
    (tailnets : List Tailnet) (status : String) :
    ((profiles.map Prod.fst).Nodup →
       ((buildOptions profiles tailnets status).filter
         (fun c => c.is_active)).length ≤ 1)
  ∧ (∀ c ∈ buildOptions profiles tailnets status,
       c.is_active = true ↔
         (isLoggedIn status = true ∧
          (profiles.find? (fun r => endsWithStar r.2)).map Prod.fst =
            some c.name)) := by
  constructor
  · intro h
    simp only [buildOptions, List.filter_append, List.length_append]
    rw [List.filter_map, List.filter_map]
    simp only [Function.comp_def, List.length_map]
    have hB : (tailnets.filter
        (fun tn => !(profiles.any (fun p => p.1 == tn.name)))).filter
        (fun _ => false) = [] := by
      rw [List.filter_eq_nil_iff]
      intro a _
      simp
    rw [hB]
    simp only [List.length_nil, Nat.add_zero]
    cases hact : activeTailnet (isLoggedIn status) profiles with
    | none =>
      have hnil : profiles.filter
          (fun x => (none : Option String) == some x.1) = [] := by
        rw [List.filter_eq_nil_iff]
        intro a _
        simp
      simp [hnil]
    | some t0 =>
      have hfun : (fun x : String × String =>
          (some t0 : Option String) == some x.1) =
          (fun x : String × String => t0 == x.1) := by
        funext x
        simp
      rw [hfun]
      exact filter_first_name t0 profiles h
  · intro c hc
    simp only [buildOptions, List.mem_append, List.mem_map,
      List.mem_filter] at hc
    rcases hc with ⟨q, hq, rfl⟩ | ⟨tn, htn, rfl⟩
    · simp only [activeTailnet]
      cases hL : isLoggedIn status with
      | false => simp
      | true => simp [beq_iff_eq]
    · simp only []
      constructor
      · intro hfalse
        exact absurd hfalse (by simp)
      · rintro ⟨hL, hfind⟩
        exfalso
        rw [Option.map_eq_some'] at hfind
        obtain ⟨r, hr, hname⟩ := hfind
        have hmem : r ∈ profiles := List.mem_of_find?_eq_some hr
        have hany : profiles.any (fun p => p.1 == tn.name) = true := by
          rw [List.any_eq_true]
          exact ⟨r, hmem, by simp [hname]⟩
        simp [hany] at htn

/-- Witness for the amended C3 at a concrete registered list. -/
theorem c3_active_invariant_witness :
    ((buildOptions [("A", "a*"), ("B", "b")] [] "up").filter
        (fun c => c.is_active)).length ≤ 1 :=
  (c3_active_invariant [("A", "a*"), ("B", "b")] [] "up").1 (by decide)

/-- Counterexample to claim C4 as stated: duplicate names among the declared
identities (or among the registered profiles) survive into the merged list. -/
theorem c4_counterexample :
    ¬ ((buildOptions []
          [⟨"H", none, none, none⟩, ⟨"H", none, none, none⟩] "up").map
        (fun c => c.name)).Nodup
  ∧ ¬ ((buildOptions [("A", "x"), ("A", "y")] [] "up").map
        (fun c => c.name)).Nodup := by
  refine ⟨by decide, by decide⟩

/-- Claim C4 as amended: provided the registered names and the declared
names are each pairwise distinct, the merged candidate list has exactly one
entry per name in the union, with all registered entries (flagged as
profiles) preceding all declared-only entries and each sub-list's order
preserved. -/
theorem c4_merge_properties (profiles : List (String × String))
    (tailnets : List Tailnet) (status : String)
    (h1 : (profiles.map Prod.fst).Nodup)
    (h2 : (tailnets.map (fun t => t.name)).Nodup) :
    ((buildOptions profiles tailnets status).map (fun c => c.name)).Nodup
  ∧ (∀ n, n ∈ (buildOptions profiles tailnets status).map (fun c => c.name) ↔
       (n ∈ profiles.map Prod.fst ∨ n ∈ tailnets.map (fun t => t.name)))
  ∧ (buildOptions profiles tailnets status).map
        (fun c => (c.name, c.is_profile)) =
      profiles.map (fun q => (q.1, true)) ++
      ((tailnets.map (fun t => t.name)).filter
        (fun n => !(profiles.any (fun p => p.1 == n)))).map
        (fun n => (n, false)) := by
  have hfmap : (tailnets.map (fun t => t.name)).filter
      (fun n => !(profiles.any (fun p => p.1 == n))) =
      (tailnets.filter
        (fun tn => !(profiles.any (fun p => p.1 == tn.name)))).map
        (fun t => t.name) := by
    rw [List.filter_map]
    rfl
  have hnames : (buildOptions profiles tailnets status).map (fun c => c.name) =
      profiles.map Prod.fst ++
      (tailnets.map (fun t => t.name)).filter
        (fun n => !(profiles.any (fun p => p.1 == n))) := by
    simp only [buildOptions, List.map_append, List.map_map, hfmap]
    rfl
  have hsplit : ∀ n, n ∈ (tailnets.map (fun t => t.name)).filter
      (fun n => !(profiles.any (fun p => p.1 == n))) ↔
      (n ∈ tailnets.map (fun t => t.name) ∧ n ∉ profiles.map Prod.fst) := by
    intro n
    rw [List.mem_filter]
    constructor
    · rintro ⟨hmem, hpred⟩
      refine ⟨hmem, ?_⟩
      intro hin
      rw [List.mem_map] at hin
      obtain ⟨q, hq, rfl⟩ := hin
      have : profiles.any (fun p => p.1 == q.1) = true := by
        rw [List.any_eq_true]
        exact ⟨q, hq, by simp⟩
      simp [this] at hpred
    · rintro ⟨hmem, hnin⟩
      refine ⟨hmem, ?_⟩
      simp only [Bool.not_eq_true']
      rw [List.any_eq_false]
      intro p hp
      simp only [beq_iff_eq]
      intro he
      exact hnin (he ▸ List.mem_map_of_mem Prod.fst hp)
  refine ⟨?_, ?_, ?_⟩
  · rw [hnames, List.nodup_append]
    refine ⟨h1, h2.filter _, ?_⟩
    intro n hn1 hn2
    exact ((hsplit n).mp hn2).2 hn1
  · intro n
    rw [hnames, List.mem_append, hsplit n]
    tauto
  · simp only [buildOptions, List.map_append, List.map_map, hfmap,
      List.map_map]
    rfl

/-- Witness for the amended C4 at concrete registered and declared lists. -/
theorem c4_merge_properties_witness :
    ((buildOptions [("A", "a*")]
        [⟨"A", none, none, none⟩, ⟨"B", none, none, none⟩] "up").map
      (fun c => c.name)).Nodup :=
  (c4_merge_properties [("A", "a*")]
    [⟨"A", none, none, none⟩, ⟨"B", none, none, none⟩] "up"
    (by decide) (by decide)).1

theorem startsWithSeq_marker_head (suf : List Char)
    (h : startsWithSeq suf urlMarker = true) : ∃ cs, suf = 'h' :: cs := by
  have hm : urlMarker = 'h' :: "ttps://login.tailscale.com".data := rfl
  cases suf with
  | nil =>
    rw [hm] at h
    simp [startsWithSeq] at h
  | cons c cs =>
    rw [hm] at h
    simp only [startsWithSeq, Bool.and_eq_true, beq_iff_eq] at h
    exact ⟨cs, by rw [h.1]⟩

theorem findSeqSuffix_some_starts (needle : List Char) :
    ∀ (hay suf : List Char), findSeqSuffix needle hay = some suf →
      startsWithSeq suf needle = true := by
  intro hay
  induction hay with
  | nil =>
    intro suf h
    unfold findSeqSuffix at h
    split at h
    · next hc =>
      injection h with h2
      rw [← h2]
      exact hc
    · cases h
  | cons c rest ih =>
    intro suf h
    unfold findSeqSuffix at h
    split at h
    · next hc =>
      injection h with h2
      rw [← h2]
      exact hc
    · exact ih suf h

theorem splitWhitespaceNext_marker (suf : List Char)
    (h : startsWithSeq suf urlMarker = true) :
    splitWhitespaceNext suf = suf.takeWhile (fun c => !c.isWhitespace) ∧
    splitWhitespaceNext suf ≠ [] ∧
    ∀ c ∈ splitWhitespaceNext suf, c.isWhitespace = false := by
  obtain ⟨cs, rfl⟩ := startsWithSeq_marker_head suf h
  have hh : ('h'.isWhitespace) = false := by decide
  have h1 : splitWhitespaceNext ('h' :: cs) =
      ('h' :: cs).takeWhile (fun c => !c.isWhitespace) := by
    simp [splitWhitespaceNext, List.dropWhile_cons, hh]
  refine ⟨h1, ?_, ?_⟩
  · rw [h1]
    simp [List.takeWhile_cons, hh]
  · intro c hc
    rw [h1] at hc
    have := List.mem_takeWhile_imp hc
    simpa using this

theorem scanLines_isSome (lines : List (List Char)) :
    (scanLines lines).isSome =
      lines.any (fun l => containsSeq l urlMarker) := by
  induction lines with
  | nil => simp [scanLines]
  | cons line rest ih =>
    cases hf : findMarkerSuffix line with
    | some suf =>
      have hs := findSeqSuffix_some_starts urlMarker line suf hf
      have h3 := splitWhitespaceNext_marker suf hs
      have hne : (splitWhitespaceNext suf).isEmpty = false := by
        cases hsp : splitWhitespaceNext suf with
        | nil => exact absurd hsp h3.2.1
        | cons a l => rfl
      have hcon : containsSeq line urlMarker = true := by
        unfold containsSeq
        rw [show findSeqSuffix urlMarker line = some suf from hf]
        rfl
      simp [scanLines, hf, hne, List.any_cons, hcon]
    | none =>
      have hcon : containsSeq line urlMarker = false := by
        unfold containsSeq
        rw [show findSeqSuffix urlMarker line = none from hf]
        rfl
      simp [scanLines, hf, ih, List.any_cons, hcon]

theorem scanLines_some_props (lines : List (List Char)) (url : List Char)
    (h : scanLines lines = some url) :
    url ≠ [] ∧ (∀ c ∈ url, c.isWhitespace = false) ∧
    ∃ line ∈ lines, ∃ suf, findMarkerSuffix line = some suf ∧
      url = suf.takeWhile (fun c => !c.isWhitespace) := by
  induction lines with
  | nil => simp [scanLines] at h
  | cons line rest ih =>
    cases hf : findMarkerSuffix line with
    | some suf =>
      have hs := findSeqSuffix_some_starts urlMarker line suf hf
      have h3 := splitWhitespaceNext_marker suf hs
      have hne : (splitWhitespaceNext suf).isEmpty = false := by
        cases hsp : splitWhitespaceNext suf with
        | nil => exact absurd hsp h3.2.1
        | cons a l => rfl
      simp only [scanLines, hf, hne, Bool.false_eq_true, if_false,
        Option.some_inj] at h
      refine ⟨?_, ?_, line, List.mem_cons_self line rest, suf, hf, ?_⟩
      · rw [← h]
        exact h3.2.1
      · rw [← h]
        exact h3.2.2
      · rw [← h, h3.1]
    | none =>
      simp only [scanLines, hf] at h
      obtain ⟨hne, hws, line2, hline2, suf, hsuf, hurl⟩ := ih h
      exact ⟨hne, hws, line2, List.mem_cons_of_mem line hline2, suf, hsuf,
        hurl⟩

theorem pollForUrl_none (read : Nat → Option (List Char)) :
    ∀ (fuel i : Nat), (∀ j, j < fuel → attemptFinds read (i + j) = false) →
      pollForUrl read i fuel =
        (none, (List.replicate fuel
          [PollEvent.sleepMs 200, PollEvent.readFile]).flatten) := by
  intro fuel
  induction fuel with
  | zero =>
    intro i _
    simp [pollForUrl]
  | succ fuel ih =>
    intro i h
    have h0 : attemptFinds read i = false := by
      have := h 0 (Nat.succ_pos fuel)
      simpa using this
    have hrest : ∀ j, j < fuel → attemptFinds read (i + 1 + j) = false := by
      intro j hj
      have := h (j + 1) (by omega)
      rw [show i + (j + 1) = i + 1 + j by omega] at this
      exact this
    have ihr := ih (i + 1) hrest
    cases hr : read i with
    | some contents =>
      have hs : scanLines (rustLines contents) = none := by
        simp only [attemptFinds, hr] at h0
        exact Option.not_isSome_iff_eq_none.mp (by simp [h0])
      simp [pollForUrl, hr, hs, ihr, List.replicate_succ]
    | none =>
      simp [pollForUrl, hr, ihr, List.replicate_succ]

theorem pollForUrl_found (read : Nat → Option (List Char)) :
    ∀ (fuel k i : Nat), k < fuel → attemptFinds read (i + k) = true →
      ∃ j url, j ≤ k ∧
        (∃ contents, read (i + j) = some contents ∧
          scanLines (rustLines contents) = some url) ∧
        pollForUrl read i fuel =
          (some url, (List.replicate (j + 1)
            [PollEvent.sleepMs 200, PollEvent.readFile]).flatten) := by
  intro fuel
  induction fuel with
  | zero =>
    intro k i hk _
    exact absurd hk (Nat.not_lt_zero k)
  | succ fuel ih =>
    intro k i hk hfind
    cases h0 : attemptFinds read i with
    | true =>
      have hex : ∃ contents, read i = some contents ∧
          (scanLines (rustLines contents)).isSome = true := by
        revert h0
        unfold attemptFinds
        cases hr : read i with
        | none =>
          intro h0
          cases h0
        | some c =>
          intro h0
          exact ⟨c, rfl, h0⟩
      obtain ⟨contents, hr, hsome⟩ := hex
      obtain ⟨url, hs⟩ := Option.isSome_iff_exists.mp hsome
      refine ⟨0, url, Nat.zero_le k, ⟨contents, by simpa using hr, hs⟩, ?_⟩
      simp [pollForUrl, hr, hs]
    | false =>
      have hk0 : k ≠ 0 := by
        intro hkz
        rw [hkz, Nat.add_zero, h0] at hfind
        cases hfind
      obtain ⟨k2, rfl⟩ : ∃ k2, k = k2 + 1 := ⟨k - 1, by omega⟩
      have hfind2 : attemptFinds read (i + 1 + k2) = true := by
        rw [show i + 1 + k2 = i + (k2 + 1) by omega]
        exact hfind
      obtain ⟨j2, url, hj2, hc, hp⟩ := ih k2 (i + 1) (by omega) hfind2
      refine ⟨j2 + 1, url, by omega, ?_, ?_⟩
      · obtain ⟨contents, hrc, hsc⟩ := hc
        refine ⟨contents, ?_, hsc⟩
        rw [show i + (j2 + 1) = i + 1 + j2 by omega]
        exact hrc
      · cases hr : read i with
        | some contents =>
          have hs : scanLines (rustLines contents) = none := by
            simp only [attemptFinds, hr] at h0
            exact Option.not_isSome_iff_eq_none.mp (by simp [h0])
          simp [pollForUrl, hr, hs, hp, List.replicate_succ]
        | none =>
          simp [pollForUrl, hr, hp, List.replicate_succ]

theorem pollForUrl_some (read : Nat → Option (List Char)) :
    ∀ (fuel i : Nat) (url : List Char),
      (pollForUrl read i fuel).1 = some url →
      ∃ j contents, read (i + j) = some contents ∧
        scanLines (rustLines contents) = some url := by
  intro fuel
  induction fuel with
  | zero =>
    intro i url h
    simp [pollForUrl] at h
  | succ fuel ih =>
    intro i url h
    cases hr : read i with
    | some contents =>
      cases hs : scanLines (rustLines contents) with
      | some u2 =>
        simp only [pollForUrl, hr, hs] at h
        refine ⟨0, contents, by simpa using hr, ?_⟩
        rw [hs]
        simpa using h
      | none =>
        simp only [pollForUrl, hr, hs] at h
        obtain ⟨j, c2, hrc, hsc⟩ := ih (i + 1) url h
        refine ⟨j + 1, c2, ?_, hsc⟩
        rw [show i + (j + 1) = i + 1 + j by omega]
        exact hrc
    | none =>
      simp only [pollForUrl, hr] at h
      obtain ⟨j, c2, hrc, hsc⟩ := ih (i + 1) url h
      refine ⟨j + 1, c2, ?_, hsc⟩
      rw [show i + (j + 1) = i + 1 + j by omega]
      exact hrc

theorem readCount_append (a b : List PollEvent) :
    readCount (a ++ b) = readCount a + readCount b := by
  simp [readCount, List.filter_append]

theorem readCount_flatten_replicate (n : Nat) :
    readCount ((List.replicate n
      [PollEvent.sleepMs 200, PollEvent.readFile]).flatten) = n := by
  induction n with
  | zero => rfl
  | succ n ih =>
    rw [List.replicate_succ, List.flatten_cons, readCount_append, ih]
    have h1 : readCount [PollEvent.sleepMs 200, PollEvent.readFile] = 1 := rfl
    omega

/-- Claim C5: if the log artifact holds a line containing the URL marker at
poll attempt k (k within the 50-attempt bound), the watcher returns the
maximal non-whitespace run starting at the marker using at most k attempts
(each preceded by a 200ms sleep); if no attempt ever sees such a line it
times out after exactly 50 sleep-read pairs; and a found URL is never empty
or whitespace-only. Attempts are 0-indexed here (attempt j is the (j+1)-th
poll). -/
theorem c5_watcher (read : Nat → Option (List Char)) :
    (∀ k contents, k < 50 → read k = some contents →
      hasMarkerLine contents = true →
      ∃ j url, j ≤ k ∧
        login_and_get_url_poll read =
          (some url, (List.replicate (j + 1)
            [PollEvent.sleepMs 200, PollEvent.readFile]).flatten) ∧
        readCount (login_and_get_url_poll read).2 = j + 1 ∧
        url ≠ [] ∧ (∀ c ∈ url, c.isWhitespace = false) ∧
        ∃ c2, read j = some c2 ∧
          ∃ line ∈ rustLines c2, ∃ suf, findMarkerSuffix line = some suf ∧
            url = suf.takeWhile (fun c => !c.isWhitespace))
  ∧ ((∀ k contents, k < 50 → read k = some contents →
        hasMarkerLine contents = false) →
      login_and_get_url_poll read =
        (none, (List.replicate 50
          [PollEvent.sleepMs 200, PollEvent.readFile]).flatten) ∧
      readCount (login_and_get_url_poll read).2 = 50)
  ∧ (∀ url, (login_and_get_url_poll read).1 = some url →
      url ≠ [] ∧ ∀ c ∈ url, c.isWhitespace = false) := by
  refine ⟨?_, ?_, ?_⟩
  · intro k contents hk hr hm
    have haf : attemptFinds read (0 + k) = true := by
      simp only [Nat.zero_add, attemptFinds, hr]
      rw [scanLines_isSome]
      exact hm
    obtain ⟨j, url, hj, hc, hp⟩ := pollForUrl_found read 50 k 0 hk haf
    obtain ⟨c2, hrc, hsc⟩ := hc
    have hrc0 : read j = some c2 := by simpa using hrc
    obtain ⟨hne, hws, line, hline, suf, hsuf, hurl⟩ :=
      scanLines_some_props (rustLines c2) url hsc
    refine ⟨j, url, hj, hp, ?_, hne, hws, c2, hrc0, line, hline, suf, hsuf,
      hurl⟩
    unfold login_and_get_url_poll
    rw [hp]
    exact readCount_flatten_replicate (j + 1)
  · intro hnone
    have hall : ∀ j, j < 50 → attemptFinds read (0 + j) = false := by
      intro j hj
      simp only [Nat.zero_add, attemptFinds]
      cases hr : read j with
      | none => rfl
      | some c =>
        show (scanLines (rustLines c)).isSome = false
        rw [scanLines_isSome]
        exact hnone j c hj hr
    have hres := pollForUrl_none read 50 0 hall
    refine ⟨hres, ?_⟩
    unfold login_and_get_url_poll
    rw [hres]
    exact readCount_flatten_replicate 50
  · intro url h
    obtain ⟨j, contents, hrc, hsc⟩ := pollForUrl_some read 50 0 url h
    obtain ⟨hne, hws, _⟩ := scanLines_some_props (rustLines contents) url hsc
    exact ⟨hne, hws⟩

theorem c5_watcher_witness :
    ∃ j url, j ≤ 2 ∧
      login_and_get_url_poll watcherLogRead =
        (some url, (List.replicate (j + 1)
          [PollEvent.sleepMs 200, PollEvent.readFile]).flatten) ∧
      readCount (login_and_get_url_poll watcherLogRead).2 = j + 1 ∧
      url ≠ [] ∧ (∀ c ∈ url, c.isWhitespace = false) ∧
      ∃ c2, watcherLogRead j = some c2 ∧
        ∃ line ∈ rustLines c2, ∃ suf, findMarkerSuffix line = some suf ∧
          url = suf.takeWhile (fun c => !c.isWhitespace) :=
  (c5_watcher watcherLogRead).1 2 watcherLogContents (by decide) rfl
    (by decide)

end Tailswitch

example :
    Tailswitch.scanLines (Tailswitch.rustLines
      "to auth visit:\n\thttps://login.tailscale.com/a/b12 now\n".data) =
      some "https://login.tailscale.com/a/b12".data := by decide
